import Mathlib

/-!
# Verification of the alec trading-bot reconciliation and retry logic

Shallow embedding, in Lean 4, of the parts of the `alec` repository that the
specification's claims are about:

* `alec/api/bitfinex_v1_rest.py` — the authenticated request loop `auth_req`
  (retry/backoff/rate-limit behaviour) and `new_limit_order`;
* `alec/scripts/trade_bot.py` — the reconciliation loop (`_check_new_watched_orders`,
  `_check_watched_orders`, `_create_two_paired_orders`, `_record_executed`,
  `_get_order_status`);
* `alec/scripts/trade_jbot.py` — the variant with the durable
  "should-have-been-cancelled" set (`_cancel_order`, `_save_should_be_cancelled_order`,
  and the suppression check in `_check_watched_orders`);
* `alec/scripts/wallet_stats.py` — the `Intervals` fetched-range bookkeeping.

Python `decimal.Decimal` values are modelled as exact rationals (`ℚ`); Python
`dict`s (which preserve insertion order) are modelled as association lists with
insert-in-place overwrite; exceptions are modelled with `Except`; network I/O is
modelled by outcome oracles (a function from attempt index to the outcome of
that attempt).
-/

deriving instance DecidableEq for Except

namespace Alec

/-- Does the character list start with the given pattern? -/
def startsWithChars : List Char → List Char → Bool
  | _, [] => true
  | [], _ :: _ => false
  | c :: rest, p :: ps => c == p && startsWithChars rest ps

/-- Does the pattern occur anywhere in the character list? -/
def containsSubChars : List Char → List Char → Bool
  | [], pat => pat.isEmpty
  | c :: rest, pat => startsWithChars (c :: rest) pat || containsSubChars rest pat

/-- Python's substring test `pat in s`: the pattern occurs somewhere in `s`. -/
def containsSub (s pat : String) : Bool :=
  containsSubChars s.data pat.data

/-! ## Python dict model

Python dicts preserve insertion order; assignment to an existing key overwrites
in place, assignment to a fresh key appends, and `pop` removes the key. -/

/-- `d[k] = v` on a Python dict: overwrite in place, or append a new key. -/
def dictSet {α : Type} : List (Nat × α) → Nat → α → List (Nat × α)
  | [], k, v => [(k, v)]
  | (k', v') :: rest, k, v =>
    if k' = k then (k, v) :: rest else (k', v') :: dictSet rest k v

/-- `d.get(k)` on a Python dict. -/
def dictGet {α : Type} : List (Nat × α) → Nat → Option α
  | [], _ => none
  | (k', v') :: rest, k => if k' = k then some v' else dictGet rest k

/-- `k in d` on a Python dict. -/
def dictContains {α : Type} (d : List (Nat × α)) (k : Nat) : Bool :=
  (dictGet d k).isSome

/-- `d.pop(k)` on a Python dict (the removal effect). -/
def dictPop {α : Type} : List (Nat × α) → Nat → List (Nat × α)
  | [], _ => []
  | p :: rest, k => if p.1 = k then dictPop rest k else p :: dictPop rest k

/-- `list(d.keys())` on a Python dict. -/
def dictKeys {α : Type} (d : List (Nat × α)) : List Nat :=
  d.map (·.1)

/-! ## Exchange client: `AuthedReadonlyApi.auth_req` (bitfinex_v1_rest.py)

The request loop `for i in range(MAX_RETRY)` is modelled over an oracle
assigning to each attempt index the outcome of the POST request: a connection
error, a timeout, or a response with an HTTP status code and text. -/

/-- `MAX_RETRY = 5` in bitfinex_v1_rest.py. -/
def MAX_RETRY : Nat := 5

/-- Outcome of one `requests.post` attempt. -/
inductive ReqOutcome where
  | connError
  | timeout
  | resp (status : Nat) (text : String)
deriving DecidableEq, Repr

/-- Result of `auth_req`: how many attempts were made, how many exponential
backoff sleeps and how many 20-second rate-limit sleeps happened, and either
the accepted response `(status, text)` or the message of the raised
`BitfinexClientError`. -/
structure ReqResult where
  attempts : Nat
  backoffs : Nat
  sleeps20 : Nat
  result : Except String (Nat × String)
deriving DecidableEq, Repr

/-- The `raise BitfinexClientError('%s %s' % (resp.status_code, resp.text))`
versus `return resp.json()` tail of `auth_req`: status 200 is success. -/
def finishResp (att backoffs sleeps20 : Nat) : Option (Nat × String) → ReqResult
  | none => ⟨att, backoffs, sleeps20, .error "UnboundLocalError: resp"⟩
  | some (code, text) =>
    if code = 200 then ⟨att, backoffs, sleeps20, .ok (code, text)⟩
    else ⟨att, backoffs, sleeps20, .error (toString code ++ " " ++ text)⟩

/-- The `for i in range(MAX_RETRY)` loop body of `auth_req`:
* connection error / timeout: with `allow_retry` sleep `2**i` and continue,
  otherwise `raise BitfinexClientError('Connection error')`;
* with `allow_retry`, a 5xx response sleeps `2**i` and continues, and a
  400 response whose text contains `'Ratelimit'` sleeps 20 seconds and
  continues;
* any other response breaks out of the loop. -/
def authReqLoop (allowRetry : Bool) (outcomes : Nat → ReqOutcome) :
    Nat → Nat → Nat → Nat → Nat → Option (Nat × String) → ReqResult
  | _, 0, att, backoffs, sleeps20, lastResp => finishResp att backoffs sleeps20 lastResp
  | i, fuel + 1, att, backoffs, sleeps20, lastResp =>
    match outcomes i with
    | .connError =>
      if allowRetry then
        authReqLoop allowRetry outcomes (i + 1) fuel (att + 1) (backoffs + 1) sleeps20 lastResp
      else ⟨att + 1, backoffs, sleeps20, .error "Connection error"⟩
    | .timeout =>
      if allowRetry then
        authReqLoop allowRetry outcomes (i + 1) fuel (att + 1) (backoffs + 1) sleeps20 lastResp
      else ⟨att + 1, backoffs, sleeps20, .error "Connection error"⟩
    | .resp code text =>
      if allowRetry ∧ 500 ≤ code ∧ code ≤ 599 then
        authReqLoop allowRetry outcomes (i + 1) fuel (att + 1) (backoffs + 1) sleeps20
          (some (code, text))
      else if allowRetry ∧ code = 400 ∧ containsSub text "Ratelimit" then
        authReqLoop allowRetry outcomes (i + 1) fuel (att + 1) backoffs (sleeps20 + 1)
          (some (code, text))
      else finishResp (att + 1) backoffs sleeps20 (some (code, text))

/-- `AuthedReadonlyApi.auth_req(path, params, allow_retry)`: the retry loop
followed by the status check. -/
def authReq (allowRetry : Bool) (outcomes : Nat → ReqOutcome) : ReqResult :=
  authReqLoop allowRetry outcomes 0 MAX_RETRY 0 0 0 none

/-- `FullApi.new_limit_order`: builds the order body and calls
`auth_req('v1/order/new', body, allow_retry=False)` — the body does not affect
the retry control flow, which is what is modelled here. -/
def newLimitOrder (outcomes : Nat → ReqOutcome) : ReqResult :=
  authReq false outcomes

/-- Python's `str.lower()` (ASCII case folding, which is all the bot's
currency and wallet-type strings need). -/
def pyLower (s : String) : String := ⟨s.data.map Char.toLower⟩

/-! ## trade_bot.py: order data and the status-polling helper -/

/-- `FIAT = 'usd'` in trade_bot.py / trade_jbot.py. -/
def FIAT : String := "usd"

/-- `MAX_ORDER_STATUS_RETRIES = 30` in trade_bot.py (same value in trade_jbot.py). -/
def MAX_ORDER_STATUS_RETRIES : Nat := 30

/-- `MAX_CANCEL_ORDER_RETRIES = 5` in trade_bot.py. -/
def MAX_CANCEL_ORDER_RETRIES : Nat := 5

/-- `MAX_CANCEL_ORDER_RETRIES = 10` in trade_jbot.py. -/
def JBOT_MAX_CANCEL_ORDER_RETRIES : Nat := 10

/-- The fields of a bitfinex v1 order-status dict that the bots read
(`id`, `symbol`, `side`, `original_amount`, `price`, `avg_execution_price`,
`timestamp`, `is_live`, `is_cancelled`, `type`).  Decimal fields are exact
rationals, as produced by `PublicApi._normalize`. -/
structure OrderStatus where
  id : Nat
  symbol : String
  side : String
  originalAmount : ℚ
  price : ℚ
  avgExecutionPrice : ℚ
  timestamp : ℚ
  isLive : Bool
  isCancelled : Bool
  otype : String
deriving DecidableEq, Repr

/-- Outcome of one `self._v1_client.order_status(id=id)` call. -/
inductive StatusOutcome where
  | ok (st : OrderStatus)
  | clientError (msg : String)
  | otherError (msg : String)
deriving DecidableEq, Repr

/-- Result of `TradeBot._get_order_status`: attempts made, 1-second sleeps
taken, and either the raised error's message or the returned value
(`none` models the `return None` after the retries are exhausted). -/
structure StatusResult where
  attempts : Nat
  sleeps : Nat
  result : Except String (Option OrderStatus)
deriving DecidableEq, Repr

/-- The `for i in xrange(MAX_ORDER_STATUS_RETRIES)` loop of
`TradeBot._get_order_status`: a `BitfinexClientError` whose message contains
`'No such order found'` sleeps one second and retries; any other error is
re-raised; after the loop the function returns `None`. -/
def getOrderStatusLoop (outcomes : Nat → StatusOutcome) :
    Nat → Nat → Nat → Nat → StatusResult
  | _, 0, att, sleeps => ⟨att, sleeps, .ok none⟩
  | i, fuel + 1, att, sleeps =>
    match outcomes i with
    | .ok st => ⟨att + 1, sleeps, .ok (some st)⟩
    | .clientError msg =>
      if containsSub msg "No such order found" then
        getOrderStatusLoop outcomes (i + 1) fuel (att + 1) (sleeps + 1)
      else ⟨att + 1, sleeps, .error msg⟩
    | .otherError msg => ⟨att + 1, sleeps, .error msg⟩

/-- `TradeBot._get_order_status(id)`, over the oracle of query outcomes. -/
def getOrderStatus (outcomes : Nat → StatusOutcome) : StatusResult :=
  getOrderStatusLoop outcomes 0 MAX_ORDER_STATUS_RETRIES 0 0

/-! ## trade_bot.py: the reconciliation state and its operations -/

/-- One entry of the `balances()` result: an exchange wallet dict with
`currency`, `type`, `amount`, `available`. -/
structure Wallet where
  currency : String
  wtype : String
  amount : ℚ
  available : ℚ
deriving DecidableEq, Repr

/-- One entry of the target configuration after `_normalize_target`:
`unit`, `step` (exact decimals) and the derived `currency`. -/
structure TargetConfig where
  unit : ℚ
  step : ℚ
  currency : String
deriving DecidableEq, Repr

/-- `TradeBot._get_wallet_info(currency, balances)`: the first wallet whose
currency matches case-insensitively and whose type is `'exchange'`
(`none` models the raised `TradeBotError`). -/
def getWalletInfo (currency : String) (balances : List Wallet) : Option Wallet :=
  balances.find? (fun w => pyLower w.currency == pyLower currency && w.wtype == "exchange")

/-- The in-place mutation `wallet['available'] -= delta` performed on the
cached balances list: subtract from the first wallet matching
(`currency`, `'exchange'`). -/
def updateWalletAvailable (currency : String) (delta : ℚ) :
    List Wallet → List Wallet
  | [] => []
  | w :: rest =>
    if pyLower w.currency == pyLower currency && w.wtype == "exchange" then
      { w with available := w.available - delta } :: rest
    else w :: updateWalletAvailable currency delta rest

/-- The mutable state of a `TradeBot` instance together with its observable
effects on the outside world: the watched-orders dict, the paired-orders dict,
the cached balances, the rows inserted into the `executed_orders` table, the
order ids whose cancellation was requested, and the "not enough" notifications
sent to the log/Slack. -/
structure BotState where
  watched : List (Nat × OrderStatus)
  paired : List (Nat × Nat)
  balances : List Wallet
  records : List (ℚ × String × String × ℚ × ℚ)
  cancels : List Nat
  notes : List String
deriving DecidableEq, Repr

/-- The empty bot state (used only to totalize `Except` projections). -/
def emptyBotState : BotState := ⟨[], [], [], [], [], []⟩

/-- `TradeBot._order_was_cancelled`. -/
def orderWasCancelled (os : OrderStatus) : Bool :=
  os.isLive == false && os.isCancelled == true

/-- `TradeBot._order_was_executed`. -/
def orderWasExecuted (os : OrderStatus) : Bool :=
  os.isLive == false && os.isCancelled == false

/-- `TradeBot._record_executed(order_status)`: append
`(timestamp, symbol, side, original_amount, avg_execution_price)` to the
`executed_orders` table. -/
def recordExecuted (st : BotState) (os : OrderStatus) : BotState :=
  { st with records :=
      st.records ++ [(os.timestamp, os.symbol, os.side, os.originalAmount, os.avgExecutionPrice)] }

/-- `TradeBot._create_two_paired_orders(mid_price, symbol, amount, balances)`
with the two local variables `sell_order_id, buy_order_id` also returned.

`place symbol price amount side` is the oracle for
`_create_new_order` (the status the exchange returns for the new order).
The sell leg is placed when the coin wallet's `available` is at least
`amount * 2`, the buy leg when the fiat wallet's `available` (re-read from the
mutated cached balances) is at least `buy_price * amount * 2`; a skipped leg
logs a "not enough" notification.  If both legs were placed the pair is
recorded symmetrically in `paired`.  A missing wallet raises `TradeBotError`. -/
def createTwoPairedOrdersFull (tgt : TargetConfig)
    (place : String → ℚ → ℚ → String → OrderStatus)
    (midPrice : ℚ) (symbol : String) (amount : ℚ) (st : BotState) :
    Except String (BotState × Option Nat × Option Nat) :=
  let sellPrice := midPrice * (1 + tgt.step)
  match getWalletInfo tgt.currency st.balances with
  | none => .error "No wallet information"
  | some walletC =>
    let stSell :=
      if walletC.available ≥ amount * 2 then
        let status := place symbol sellPrice amount "sell"
        ({ st with watched := dictSet st.watched status.id status,
                   balances := updateWalletAvailable tgt.currency amount st.balances },
         some status.id)
      else
        ({ st with notes :=
            st.notes ++ ["Not enough " ++ tgt.currency ++ " to create a sell order"] },
         (none : Option Nat))
    let st1 := stSell.1
    let sellOrderId := stSell.2
    let buyPrice := midPrice * (1 - tgt.step)
    match getWalletInfo FIAT st1.balances with
    | none => .error "No wallet information"
    | some walletF =>
      let stBuy :=
        if walletF.available ≥ buyPrice * amount * 2 then
          let status := place symbol buyPrice amount "buy"
          ({ st1 with watched := dictSet st1.watched status.id status,
                      balances := updateWalletAvailable FIAT (buyPrice * amount) st1.balances },
           some status.id)
        else
          ({ st1 with notes := st1.notes ++ ["Not enough " ++ FIAT ++ " to create a buy order"] },
           (none : Option Nat))
      let st2 := stBuy.1
      let buyOrderId := stBuy.2
      match sellOrderId, buyOrderId with
      | some s, some b =>
        .ok ({ st2 with paired := dictSet (dictSet st2.paired s b) b s }, some s, some b)
      | s?, b? => .ok (st2, s?, b?)

/-- Totalized projection of `createTwoPairedOrdersFull` (used to state
properties of the non-raising case). -/
def createTwoPairedOrdersRun (tgt : TargetConfig)
    (place : String → ℚ → ℚ → String → OrderStatus)
    (midPrice : ℚ) (symbol : String) (amount : ℚ) (st : BotState) :
    BotState × Option Nat × Option Nat :=
  match createTwoPairedOrdersFull tgt place midPrice symbol amount st with
  | .ok x => x
  | .error _ => (⟨[], [], [], [], [], []⟩, none, none)

/-- `TradeBot._create_two_paired_orders`, state effect only. -/
def createTwoPairedOrders (tgt : TargetConfig)
    (place : String → ℚ → ℚ → String → OrderStatus)
    (midPrice : ℚ) (symbol : String) (amount : ℚ) (st : BotState) :
    Except String BotState :=
  (createTwoPairedOrdersFull tgt place midPrice symbol amount st).map (·.1)

/-- The executed branch of the loop body of `TradeBot._check_watched_orders`
(trade_bot.py lines 317–334), up to but not including
`_action_to_executed_order`: log/record the execution, `pop` the executed id
from the watchlist, and — if the id is paired — request cancellation of the
paired order and `pop` both pairing entries. -/
def reactExecuted (st : BotState) (id : Nat) (os : OrderStatus) : BotState :=
  let st := recordExecuted st os
  let st := { st with watched := dictPop st.watched id }
  match dictGet st.paired id with
  | some anotherId =>
    { st with cancels := st.cancels ++ [anotherId],
              paired := dictPop (dictPop st.paired id) anotherId }
  | none => st

/-- One iteration of the `for id in list(self._watched_orders.keys())` loop of
`TradeBot._check_watched_orders`: fetch the status (the oracle `statusOf`
models the return of `_get_order_status`, `none` being "not found, give up
this time"); on cancelled only `pop` the watchlist entry; on executed run
`reactExecuted` and then `_action_to_executed_order`, i.e. create two new
paired orders centered on the average execution price. -/
def checkOne (targets : List (String × TargetConfig))
    (place : String → ℚ → ℚ → String → OrderStatus)
    (statusOf : Nat → Option OrderStatus)
    (st : BotState) (id : Nat) : Except String BotState :=
  match statusOf id with
  | none => .ok st
  | some os =>
    if orderWasCancelled os then
      .ok { st with watched := dictPop st.watched id }
    else if orderWasExecuted os then
      let st := reactExecuted st id os
      match targets.lookup os.symbol with
      | none => .error "KeyError: symbol not in targets"
      | some tgt =>
        createTwoPairedOrders tgt place os.avgExecutionPrice os.symbol os.originalAmount st
    else .ok st

/-- `TradeBot._check_watched_orders`: fetch a fresh balances snapshot for this
iteration, snapshot the watched keys, and run the loop body over them. -/
def checkWatchedOrders (targets : List (String × TargetConfig))
    (place : String → ℚ → ℚ → String → OrderStatus)
    (statusOf : Nat → Option OrderStatus)
    (freshBalances : List Wallet) (st : BotState) : Except String BotState :=
  (dictKeys st.watched).foldlM (checkOne targets place statusOf)
    { st with balances := freshBalances }

/-- `TradeBot._should_watch_this_order(order)`: symbol configured, amount
equal to the target unit, live, and a plain `'exchange limit'` order. -/
def shouldWatchThisOrder (targets : List (String × TargetConfig)) (o : OrderStatus) : Bool :=
  match targets.lookup o.symbol with
  | none => false
  | some tc => o.originalAmount == tc.unit && o.isLive && o.otype == "exchange limit"

/-- The body of the `for order in orders` loop of
`TradeBot._check_new_watched_orders`: refresh the snapshot of an
already-watched id, and add any order matching the watch criteria. -/
def checkNewStep (targets : List (String × TargetConfig))
    (w : List (Nat × OrderStatus)) (o : OrderStatus) : List (Nat × OrderStatus) :=
  let w1 := if dictContains w o.id then dictSet w o.id o else w
  if shouldWatchThisOrder targets o then dictSet w1 o.id o else w1

/-- `TradeBot._check_new_watched_orders`, applied to the open-order list
returned by the exchange. -/
def checkNewWatchedOrders (targets : List (String × TargetConfig))
    (w : List (Nat × OrderStatus)) (orders : List OrderStatus) :
    List (Nat × OrderStatus) :=
  orders.foldl (checkNewStep targets) w

/-- `TradeBot._log_watched_orders` looks up
`self._watched_orders[self._paired_orders[id]]` for every watched paired id;
this predicate states that every such lookup succeeds (a `False` value means
the unguarded dict access would raise `KeyError`). -/
def logWatchedOrdersTotal (st : BotState) : Bool :=
  st.watched.all (fun p =>
    match dictGet st.paired p.1 with
    | some pid => dictContains st.watched pid
    | none => true)

/-! ## trade_jbot.py: durable should-have-been-cancelled set and suppression -/

/-- Outcome of one `self._v1_client.cancel_order(id)` call in
`trade_jbot.TradeBot._cancel_order`. -/
inductive CancelOutcome where
  | ok
  | clientError (msg : String)
  | otherError (msg : String)
deriving DecidableEq, Repr

/-- Result of the cancel retry loop: success after some attempts, giving up
after the retries are exhausted, or re-raising an error. -/
inductive CancelResult where
  | succeeded (attempts : Nat)
  | gaveUp
  | raised (msg : String) (attempts : Nat)
deriving DecidableEq, Repr

/-- The `for i in xrange(MAX_CANCEL_ORDER_RETRIES)` loop of
`trade_jbot.TradeBot._cancel_order`: a `BitfinexClientError` whose message
contains `'Order could not be cancelled.'` sleeps one second and retries;
any other error is re-raised; success returns. -/
def jCancelTry (outcomes : Nat → CancelOutcome) : Nat → Nat → CancelResult
  | _, 0 => .gaveUp
  | i, fuel + 1 =>
    match outcomes i with
    | .ok => .succeeded (i + 1)
    | .clientError msg =>
      if containsSub msg "Order could not be cancelled." then
        jCancelTry outcomes (i + 1) fuel
      else .raised msg (i + 1)
    | .otherError msg => .raised msg (i + 1)

/-- State of a `trade_jbot.TradeBot` together with its observable effects;
`shouldCancelled` is the durable `cancelled_orders` table. -/
structure JBotState where
  watched : List (Nat × OrderStatus)
  paired : List (Nat × Nat)
  records : List (ℚ × String × String × ℚ × ℚ)
  shouldCancelled : List Nat
  notes : List String
deriving DecidableEq, Repr

/-- `trade_jbot.TradeBot._record_executed(order_status)`: append
`(timestamp, symbol, side, original_amount, avg_execution_price)` to the
`executed_orders` table. -/
def recordExecuted2 (st : JBotState) (os : OrderStatus) : JBotState :=
  { st with records :=
      st.records ++ [(os.timestamp, os.symbol, os.side, os.originalAmount, os.avgExecutionPrice)] }

/-- `trade_jbot.TradeBot._save_should_be_cancelled_order(id)`:
`INSERT INTO cancelled_orders VALUES (?)`. -/
def jSaveShouldBeCancelled (st : JBotState) (id : Nat) : JBotState :=
  { st with shouldCancelled := st.shouldCancelled ++ [id] }

/-- `trade_jbot.TradeBot._is_should_be_cancelled_order(id)`:
`SELECT 1 FROM cancelled_orders WHERE id = (?)` is non-empty. -/
def jIsShouldBeCancelled (st : JBotState) (id : Nat) : Bool :=
  st.shouldCancelled.contains id

/-- `trade_jbot.TradeBot._cancel_order(id)`: "No matter the cancel order
request succeed or not, store it to db" — the id is saved to the durable set
before the first attempt, then the retry loop runs. -/
def jCancelOrder (outcomes : Nat → CancelOutcome) (id : Nat) (st : JBotState) :
    JBotState × CancelResult :=
  (jSaveShouldBeCancelled st id,
   jCancelTry outcomes 0 JBOT_MAX_CANCEL_ORDER_RETRIES)

/-- `trade_jbot.TradeBot._create_two_paired_orders`: each leg is attempted
through `_create_new_limit_order`; `place symbol price amount side = none`
models the `'Invalid order: not enough'` failure (the leg is skipped with a
"not enough" notification).  If both legs were placed the pair is recorded
symmetrically. -/
def jCreateTwoPairedOrders (tgt : TargetConfig)
    (place : String → ℚ → ℚ → String → Option OrderStatus)
    (midPrice : ℚ) (symbol : String) (amount : ℚ) (st : JBotState) : JBotState :=
  let sellPrice := midPrice * (1 + tgt.step)
  let stSell :=
    match place symbol sellPrice amount "sell" with
    | some status =>
      ({ st with watched := dictSet st.watched status.id status }, some status.id)
    | none =>
      ({ st with notes :=
          st.notes ++ ["Not enough " ++ tgt.currency ++ " to create a sell order"] },
       (none : Option Nat))
  let st1 := stSell.1
  let buyPrice := midPrice * (1 - tgt.step)
  let stBuy :=
    match place symbol buyPrice amount "buy" with
    | some status =>
      ({ st1 with watched := dictSet st1.watched status.id status }, some status.id)
    | none =>
      ({ st1 with notes := st1.notes ++ ["Not enough " ++ FIAT ++ " to create a buy order"] },
       (none : Option Nat))
  match stSell.2, stBuy.2 with
  | some s, some b =>
    { stBuy.1 with paired := dictSet (dictSet stBuy.1.paired s b) b s }
  | _, _ => stBuy.1

/-- One iteration of the `for id in list(self._watched_orders.keys())` loop of
`trade_jbot.TradeBot._check_watched_orders` (lines 327–387): the cancelled
branch also unpairs; the executed branch records, unwatches, cancels and
unpairs the sibling, and then — only if the executed id is NOT in the durable
should-have-been-cancelled set — creates the two new paired orders. -/
def jCheckOne (targets : List (String × TargetConfig))
    (place : String → ℚ → ℚ → String → Option OrderStatus)
    (statusOf : Nat → Option OrderStatus)
    (cancelOutcomes : Nat → Nat → CancelOutcome)
    (st : JBotState) (id : Nat) : Except String JBotState :=
  match statusOf id with
  | none => .ok st
  | some os =>
    if orderWasCancelled os then
      let st := { st with watched := dictPop st.watched id }
      match dictGet st.paired id with
      | some anotherId =>
        .ok { st with paired := dictPop (dictPop st.paired id) anotherId }
      | none => .ok st
    else if orderWasExecuted os then
      let st := recordExecuted2 st os
      let st := { st with watched := dictPop st.watched id }
      let step :=
        match dictGet st.paired id with
        | some anotherId =>
          let c := jCancelOrder (cancelOutcomes anotherId) anotherId st
          (({ c.1 with paired := dictPop (dictPop c.1.paired id) anotherId } : JBotState),
           c.2)
        | none => (st, CancelResult.succeeded 0)
      match step.2 with
      | .raised msg _ => .error msg
      | _ =>
        let st := step.1
        if jIsShouldBeCancelled st id then .ok st
        else
          match targets.lookup os.symbol with
          | none => .error "KeyError: symbol not in targets"
          | some tgt =>
            .ok (jCreateTwoPairedOrders tgt place os.avgExecutionPrice os.symbol
                  os.originalAmount st)
    else .ok st

/-! ## wallet_stats.py: the `Intervals` fetched-range bookkeeping

`Intervals.add(start, end)` scans `self.data`, merging every interval that
overlaps or is adjacent to the (growing) `[start, end]` window, keeps the
others, appends the merged window, and re-sorts.  Interval endpoints are
Python ints, modelled as `Int`; the two-element lists `[s, e]` are modelled as
pairs, and Python's `sorted` (lexicographic on pairs) as insertion sort under
the lexicographic order. -/

/-- Lexicographic order on endpoint pairs, as Python's `sorted` compares
two-element lists. -/
def lexLe (a b : Int × Int) : Prop :=
  a.1 < b.1 ∨ (a.1 = b.1 ∧ a.2 ≤ b.2)

instance : DecidableRel lexLe := fun a b => by
  unfold lexLe
  infer_instance

instance : IsTotal (Int × Int) lexLe where
  total a b := by
    rcases lt_trichotomy a.1 b.1 with h | h | h
    · exact Or.inl (Or.inl h)
    · rcases le_total a.2 b.2 with h2 | h2
      · exact Or.inl (Or.inr ⟨h, h2⟩)
      · exact Or.inr (Or.inr ⟨h.symm, h2⟩)
    · exact Or.inr (Or.inl h)

instance : IsTrans (Int × Int) lexLe where
  trans a b c hab hbc := by
    rcases hab with h | ⟨h, h2⟩ <;> rcases hbc with h' | ⟨h', h2'⟩
    · exact Or.inl (h.trans h')
    · exact Or.inl (h'.symm ▸ h)
    · exact Or.inl (h ▸ h')
    · exact Or.inr ⟨h.trans h', h2.trans h2'⟩

/-- The `for it in self.data` loop of `Intervals.add`: returns the kept
intervals (in their original order) and the final merged window.  An interval
`it` is merged exactly when `it[1] + 1 >= start and it[0] - 1 <= end` for the
current window, which then grows to `[min(it[0], start), max(it[1], end)]`. -/
def intervalsAddLoop : List (Int × Int) → Int → Int → List (Int × Int) × (Int × Int)
  | [], s, e => ([], (s, e))
  | it :: rest, s, e =>
    if it.2 + 1 ≥ s ∧ it.1 - 1 ≤ e then
      intervalsAddLoop rest (min it.1 s) (max it.2 e)
    else
      ((it :: (intervalsAddLoop rest s e).1), (intervalsAddLoop rest s e).2)

/-- `Intervals.add(start, end)`: calls with `end < start` are ignored;
otherwise merge, append the merged window, and sort. -/
def intervalsAdd (data : List (Int × Int)) (s e : Int) : List (Int × Int) :=
  if e < s then data
  else
    let r := intervalsAddLoop data s e
    List.insertionSort lexLe (r.1 ++ [r.2])

/-- The separation relation of the claimed invariant: `a` ends at least two
below the start of `b` (disjoint and non-adjacent). -/
def Sep (a b : Int × Int) : Prop :=
  a.2 + 2 ≤ b.1

/-- The `Intervals` values reachable from `Intervals()` (empty data) by a
sequence of `add` calls. -/
inductive IntervalsReachable : List (Int × Int) → Prop
  | empty : IntervalsReachable []
  | add (l : List (Int × Int)) (s e : Int) :
      IntervalsReachable l → IntervalsReachable (intervalsAdd l s e)

/-! ## Predicates used by the retry theorems -/

/-- The exchange reported "No such order found" on this status query. -/
def isNotFoundOutcome (o : StatusOutcome) : Prop :=
  ∃ msg, o = .clientError msg ∧ containsSub msg "No such order found" = true

/-- The exchange reported a rate-limit error on this request attempt:
HTTP 400 with `'Ratelimit'` in the response text. -/
def isRateLimitOutcome (o : ReqOutcome) : Prop :=
  ∃ text, o = .resp 400 text ∧ containsSub text "Ratelimit" = true

/-- Projection of an `Except`-valued bot state (totalizing helper). -/
def botStateOf (r : Except String BotState) : BotState :=
  match r with
  | .ok s => s
  | .error _ => emptyBotState

/-! ## Concrete scenario: the spec's end-to-end ETCUSD example

Target `ETCUSD` with `unit = 1` and `step = 0.01` (the exact decimal
`1/100`), last price `10.00`. -/

/-- The normalized `ETCUSD` target: unit 1, step 0.01, currency `etc`. -/
def c4Tgt : TargetConfig := ⟨1, 1/100, "etc"⟩

/-- The target map `{'ETCUSD': {'unit': 1, 'step': 0.01}}`. -/
def c4Targets : List (String × TargetConfig) := [("ETCUSD", c4Tgt)]

/-- A live `exchange limit` ETCUSD order snapshot of amount 1. -/
def mkLive (id : Nat) (side : String) (price : ℚ) : OrderStatus :=
  ⟨id, "ETCUSD", side, 1, price, 0, 0, true, false, "exchange limit"⟩

/-- Exchange oracle for the backfill phase: the new sell order gets id 11,
the new buy order id 12. -/
def c4Place1 : String → ℚ → ℚ → String → OrderStatus :=
  fun _sym p _amt side => if side = "sell" then mkLive 11 "sell" p else mkLive 12 "buy" p

/-- Balance snapshot for the backfill phase: plenty of coin and fiat. -/
def c4Balances1 : List Wallet :=
  [⟨"etc", "exchange", 10, 10⟩, ⟨"usd", "exchange", 1000, 1000⟩]

/-- Fresh bot state before the backfill. -/
def c4St0 : BotState := ⟨[], [], c4Balances1, [], [], []⟩

/-- The state after the backfill creates the initial pair from price 10.00. -/
def c4St1 : BotState := botStateOf (createTwoPairedOrders c4Tgt c4Place1 10 "ETCUSD" 1 c4St0)

/-- Status of the buy order 12 after it executed at 9.90. -/
def c4ExecBuy : OrderStatus :=
  ⟨12, "ETCUSD", "buy", 1, 99/10, 99/10, 1700000000, false, false, "exchange limit"⟩

/-- Status oracle for the reaction phase: the sell 11 is still live, the buy
12 executed at 9.90. -/
def c4StatusOf : Nat → Option OrderStatus :=
  fun id =>
    if id = 11 then some (mkLive 11 "sell" (101/10))
    else if id = 12 then some c4ExecBuy
    else none

/-- Exchange oracle for the reaction phase: the new sell gets id 21, the new
buy id 22. -/
def c4Place2 : String → ℚ → ℚ → String → OrderStatus :=
  fun _sym p _amt side => if side = "sell" then mkLive 21 "sell" p else mkLive 22 "buy" p

/-- Fresh balance snapshot for the reaction phase. -/
def c4Balances2 : List Wallet :=
  [⟨"etc", "exchange", 9, 9⟩, ⟨"usd", "exchange", 9901/10, 9901/10⟩]

/-- The state after `_check_watched_orders` reacts to the executed buy. -/
def c4Final : BotState :=
  botStateOf (checkWatchedOrders c4Targets c4Place2 c4StatusOf c4Balances2 c4St1)

/-! ## Concrete scenario: an externally cancelled member of a pair
(trade_bot.py) -/

/-- Status of order 1 after an external cancellation. -/
def c2CancelledSell : OrderStatus :=
  ⟨1, "ETCUSD", "sell", 1, 101/10, 0, 0, false, true, "exchange limit"⟩

/-- Status oracle: order 1 was cancelled externally, order 2 is still live. -/
def c2StatusOf : Nat → Option OrderStatus :=
  fun id =>
    if id = 1 then some c2CancelledSell
    else if id = 2 then some (mkLive 2 "buy" (99/10))
    else none

/-- Bot state watching the pair (1, 2). -/
def c2St0 : BotState :=
  ⟨[(1, mkLive 1 "sell" (101/10)), (2, mkLive 2 "buy" (99/10))],
   [(1, 2), (2, 1)], c4Balances1, [], [], []⟩

/-- The state after `_check_watched_orders` observes the cancellation. -/
def c2Final : BotState :=
  botStateOf (checkWatchedOrders c4Targets c4Place2 c2StatusOf c4Balances1 c2St0)

/-- Status of order 2 of the watched pair (1, 2) after executing at 9.90
(used to exercise the executed branch at a small concrete state). -/
def c1ExecBuy2 : OrderStatus :=
  ⟨2, "ETCUSD", "buy", 1, 99/10, 99/10, 1700000000, false, false, "exchange limit"⟩

/-! ## Concrete scenario: coin balance between one and two units
(trade_bot.py `_create_two_paired_orders`) -/

/-- Balances with 1.5 etc available (covers the requested amount 1, but is
below the code's `amount * 2` threshold) and ample fiat. -/
def c6Balances : List Wallet :=
  [⟨"etc", "exchange", 3/2, 3/2⟩, ⟨"usd", "exchange", 1000, 1000⟩]

/-- Bot state holding that balance snapshot. -/
def c6St0 : BotState := ⟨[], [], c6Balances, [], [], []⟩

/-- Exchange oracle: a new sell would get id 31, a new buy id 32. -/
def c6Place : String → ℚ → ℚ → String → OrderStatus :=
  fun _sym p _amt side => if side = "sell" then mkLive 31 "sell" p else mkLive 32 "buy" p

/-- The result of `_create_two_paired_orders` (with the two order-id local
variables) on that snapshot. -/
def c6Out : BotState × Option Nat × Option Nat :=
  match createTwoPairedOrdersFull c4Tgt c6Place 10 "ETCUSD" 1 c6St0 with
  | .ok x => x
  | .error _ => (emptyBotState, none, none)

/-! ## Concrete scenario: a cancel that succeeds on the first attempt
(trade_jbot.py `_cancel_order`) -/

/-- A fresh jbot state. -/
def jSt0 : JBotState := ⟨[], [], [], [], []⟩

/-- `_cancel_order(42)` when the exchange accepts the cancellation at once. -/
def c8Res : JBotState × CancelResult := jCancelOrder (fun _ => .ok) 42 jSt0

/-- A jbot state watching the pair (1, 2) where order 2 is already in the
durable should-have-been-cancelled set. -/
def c8St1 : JBotState :=
  ⟨[(1, mkLive 1 "sell" (101/10)), (2, mkLive 2 "buy" (99/10))],
   [(1, 2), (2, 1)], [], [2], []⟩

/-! # Theorems -/

/-! ## Small evaluation facts used by the concrete-scenario proofs -/

theorem pyLower_etc : pyLower "etc" = "etc" := rfl

theorem pyLower_usd : pyLower "usd" = "usd" := rfl

/-! ## Helper lemmas: the retry loops -/

/-- With retries disallowed, one pass of the `auth_req` loop body decides the
call: a connection error or timeout raises at once, any response breaks out. -/
theorem authReqLoop_noRetry (outcomes : Nat → ReqOutcome)
    (i fuel att backoffs sleeps20 : Nat) (lastResp : Option (Nat × String)) :
    authReqLoop false outcomes i (fuel + 1) att backoffs sleeps20 lastResp =
      match outcomes i with
      | .connError => ⟨att + 1, backoffs, sleeps20, .error "Connection error"⟩
      | .timeout => ⟨att + 1, backoffs, sleeps20, .error "Connection error"⟩
      | .resp code text => finishResp (att + 1) backoffs sleeps20 (some (code, text)) := by
  cases h : outcomes i <;> simp [authReqLoop, h]

/-- With retries allowed, a run of `k` rate-limit responses followed by a 200
response makes `k + 1` attempts with `k` rate-limit sleeps and succeeds. -/
theorem authReqLoop_rateLimit (outcomes : Nat → ReqOutcome) (t : String) :
    ∀ (k fuel i att backoffs sleeps20 : Nat) (lastResp : Option (Nat × String)),
      k < fuel →
      (∀ j, j < k → isRateLimitOutcome (outcomes (i + j))) →
      outcomes (i + k) = .resp 200 t →
      authReqLoop true outcomes i fuel att backoffs sleeps20 lastResp =
        ⟨att + k + 1, backoffs, sleeps20 + k, .ok (200, t)⟩
  | 0, fuel + 1, i, att, backoffs, sleeps20, lastResp, _, _, hok => by
    have h0 : outcomes i = .resp 200 t := by simpa using hok
    simp [authReqLoop, h0, finishResp]
  | k + 1, fuel + 1, i, att, backoffs, sleeps20, lastResp, hk, hrl, hok => by
    obtain ⟨text, heq, htext⟩ := hrl 0 (Nat.succ_pos k)
    have hi : outcomes i = .resp 400 text := by simpa using heq
    have hrec := authReqLoop_rateLimit outcomes t k fuel (i + 1) (att + 1) backoffs
      (sleeps20 + 1) (some (400, text)) (Nat.lt_of_succ_lt_succ hk)
      (fun j hj => by
        have := hrl (j + 1) (Nat.succ_lt_succ hj)
        simpa [Nat.add_assoc, Nat.add_comm 1 j] using this)
      (by
        have : i + 1 + k = i + (k + 1) := by omega
        rw [this, hok])
    simp only [authReqLoop, hi]
    norm_num [htext, hrec]
    omega

/-- A run of `k` "No such order found" errors followed by a different
`BitfinexClientError` makes `k + 1` status attempts and re-raises. -/
theorem getOrderStatusLoop_reraise (outcomes : Nat → StatusOutcome) (msg : String) :
    ∀ (k fuel i att sleeps : Nat),
      k < fuel →
      (∀ j, j < k → isNotFoundOutcome (outcomes (i + j))) →
      outcomes (i + k) = .clientError msg →
      containsSub msg "No such order found" = false →
      getOrderStatusLoop outcomes i fuel att sleeps =
        ⟨att + k + 1, sleeps + k, .error msg⟩
  | 0, fuel + 1, i, att, sleeps, _, _, hk, hmsg => by
    have h0 : outcomes i = .clientError msg := by simpa using hk
    simp [getOrderStatusLoop, h0, hmsg]
  | k + 1, fuel + 1, i, att, sleeps, hkf, hnf, hk, hmsg => by
    obtain ⟨m, heq, hm⟩ := hnf 0 (Nat.succ_pos k)
    have hi : outcomes i = .clientError m := by simpa using heq
    have hrec := getOrderStatusLoop_reraise outcomes msg k fuel (i + 1) (att + 1)
      (sleeps + 1) (Nat.lt_of_succ_lt_succ hkf)
      (fun j hj => by
        have := hnf (j + 1) (Nat.succ_lt_succ hj)
        simpa [Nat.add_assoc, Nat.add_comm 1 j] using this)
      (by
        have : i + 1 + k = i + (k + 1) := by omega
        rw [this, hk])
      hmsg
    simp only [getOrderStatusLoop, hi, hm, if_true]
    rw [hrec]
    have h1 : att + 1 + k + 1 = att + (k + 1) + 1 := by omega
    have h2 : sleeps + 1 + k = sleeps + (k + 1) := by omega
    rw [h1, h2]

/-- When every query in range reports "No such order found", the loop uses all
its fuel, sleeping once per failed attempt, and returns `None`. -/
theorem getOrderStatusLoop_allNotFound (outcomes : Nat → StatusOutcome) :
    ∀ (fuel i att sleeps : Nat),
      (∀ j, j < fuel → isNotFoundOutcome (outcomes (i + j))) →
      getOrderStatusLoop outcomes i fuel att sleeps =
        ⟨att + fuel, sleeps + fuel, .ok none⟩
  | 0, i, att, sleeps, _ => by simp [getOrderStatusLoop]
  | fuel + 1, i, att, sleeps, hnf => by
    obtain ⟨m, heq, hm⟩ := hnf 0 (Nat.succ_pos fuel)
    have hi : outcomes i = .clientError m := by simpa using heq
    have hrec := getOrderStatusLoop_allNotFound outcomes fuel (i + 1) (att + 1)
      (sleeps + 1)
      (fun j hj => by
        have := hnf (j + 1) (Nat.succ_lt_succ hj)
        simpa [Nat.add_assoc, Nat.add_comm 1 j] using this)
    simp only [getOrderStatusLoop, hi, hm, if_true]
    rw [hrec]
    have h1 : att + 1 + fuel = att + (fuel + 1) := by omega
    have h2 : sleeps + 1 + fuel = sleeps + (fuel + 1) := by omega
    rw [h1, h2]

/-! ## C3: order placement never retries -/

/-- C3: `new_limit_order` performs exactly one request attempt for every
input; if that attempt raises a connection error or timeout, no retry occurs
and the failure is surfaced immediately as the `BitfinexClientError`
(message `'Connection error'`). -/
theorem C3_newLimitOrder_single_attempt (outcomes : Nat → ReqOutcome) :
    (newLimitOrder outcomes).attempts = 1 ∧
    ((outcomes 0 = .connError ∨ outcomes 0 = .timeout) →
      (newLimitOrder outcomes).result = .error "Connection error") := by
  have h : newLimitOrder outcomes = authReqLoop false outcomes 0 (4 + 1) 0 0 0 none := rfl
  rw [h, authReqLoop_noRetry]
  cases ho : outcomes 0 with
  | connError => exact ⟨rfl, fun _ => rfl⟩
  | timeout => exact ⟨rfl, fun _ => rfl⟩
  | resp code text =>
    constructor
    · simp [finishResp]
      split <;> rfl
    · rintro (h2 | h2) <;> simp_all

/-- Witness for C3 at a concrete input: a mock that raises a connection error
on the first (and only) attempt. -/
theorem C3_witness :
    (newLimitOrder (fun _ => .connError)).attempts = 1 ∧
    (newLimitOrder (fun _ => .connError)).result = .error "Connection error" :=
  ⟨(C3_newLimitOrder_single_attempt (fun _ => .connError)).1,
   (C3_newLimitOrder_single_attempt (fun _ => .connError)).2 (Or.inl rfl)⟩

/-! ## C5: the status poll gives up after exactly 30 attempts -/

/-- C5: when the exchange reports "No such order found" on every status query,
`_get_order_status` makes exactly 30 attempts (sleeping 1 second after each
failed attempt, hence between consecutive attempts) and then returns `None`
without raising; and any `BitfinexClientError` other than "No such order
found" is re-raised immediately, after `k + 1` attempts when it arrives on
attempt `k`. -/
theorem C5_getOrderStatus_retry_bound (outcomes : Nat → StatusOutcome) :
    ((∀ j, j < MAX_ORDER_STATUS_RETRIES → isNotFoundOutcome (outcomes j)) →
      getOrderStatus outcomes = ⟨30, 30, .ok none⟩) ∧
    (∀ k msg, k < MAX_ORDER_STATUS_RETRIES →
      (∀ j, j < k → isNotFoundOutcome (outcomes j)) →
      outcomes k = .clientError msg →
      containsSub msg "No such order found" = false →
      getOrderStatus outcomes = ⟨k + 1, k, .error msg⟩) := by
  constructor
  · intro h
    have := getOrderStatusLoop_allNotFound outcomes MAX_ORDER_STATUS_RETRIES 0 0 0
      (fun j hj => by simpa using h j hj)
    simpa [getOrderStatus] using this
  · intro k msg hk hnf hkmsg hsub
    have := getOrderStatusLoop_reraise outcomes msg k MAX_ORDER_STATUS_RETRIES 0 0 0 hk
      (fun j hj => by simpa using hnf j hj) (by simpa using hkmsg) hsub
    simpa [getOrderStatus] using this

/-- Witness for C5 at concrete inputs: a mock that always reports "No such
order found" yields 30 attempts then `None`; a mock that reports a different
error on the second query re-raises after 2 attempts. -/
theorem C5_witness :
    getOrderStatus (fun _ => .clientError "No such order found") = ⟨30, 30, .ok none⟩ ∧
    getOrderStatus (fun i => if i = 0 then .clientError "No such order found"
      else .clientError "ERR_RATE_LIMIT") = ⟨2, 1, .error "ERR_RATE_LIMIT"⟩ := by
  constructor
  · exact (C5_getOrderStatus_retry_bound (fun _ => .clientError "No such order found")).1
      (fun j _ => ⟨"No such order found", rfl, by decide⟩)
  · exact (C5_getOrderStatus_retry_bound (fun i => if i = 0 then
        .clientError "No such order found" else .clientError "ERR_RATE_LIMIT")).2
      1 "ERR_RATE_LIMIT" (by decide)
      (fun j hj => by
        interval_cases j
        exact ⟨"No such order found", rfl, by decide⟩)
      rfl (by decide)

/-! ## C7: rate-limit retries happen only for retry-safe calls -/

/-- C7 counterexample: a rate-limit error on an order-placement call
(`allow_retry=False`) does NOT cause a 20-second sleep and a retry: exactly
one attempt is made, no rate-limit sleep happens, and the error is raised
immediately — contradicting the claim that the rate-limit cool-down applies
"independent of whether the caller declared the operation retry-safe". -/
theorem C7_counterexample :
    (newLimitOrder (fun _ => .resp 400 "Ratelimit: error")).attempts = 1 ∧
    (newLimitOrder (fun _ => .resp 400 "Ratelimit: error")).sleeps20 = 0 ∧
    (newLimitOrder (fun _ => .resp 400 "Ratelimit: error")).result =
      .error "400 Ratelimit: error" :=
  ⟨rfl, rfl, rfl⟩

/-- C7 (amended): for calls made with `allow_retry=True`, each rate-limit
error (HTTP 400 with `'Ratelimit'` in the text) causes a 20-second sleep and a
retry, up to the common 5-attempt bound; order placement passes
`allow_retry=False`, so there a rate-limit error is raised immediately after a
single attempt with no cool-down sleep. -/
theorem C7_rateLimit_retry_amended (outcomes : Nat → ReqOutcome) (t : String) (k : Nat)
    (hk : k < MAX_RETRY)
    (hrl : ∀ j, j < k → isRateLimitOutcome (outcomes j))
    (hok : outcomes k = .resp 200 t) :
    authReq true outcomes = ⟨k + 1, 0, k, .ok (200, t)⟩ ∧
    ∀ (o : Nat → ReqOutcome) (text : String), o 0 = .resp 400 text →
      containsSub text "Ratelimit" = true →
      newLimitOrder o = ⟨1, 0, 0, .error ("400 " ++ text)⟩ := by
  constructor
  · have := authReqLoop_rateLimit outcomes t k MAX_RETRY 0 0 0 0 none hk
      (fun j hj => by simpa using hrl j hj) (by simpa using hok)
    simpa [authReq] using this
  · intro o text h0 _
    have h : newLimitOrder o = authReqLoop false o 0 (4 + 1) 0 0 0 none := rfl
    rw [h, authReqLoop_noRetry, h0]
    simp [finishResp]
    rfl

/-- Witness for C7 (amended) at a concrete input: two rate-limit errors, then
success, under `allow_retry=True`; and a rate-limited placement call. -/
theorem C7_witness :
    authReq true (fun i => if i < 2 then .resp 400 "Ratelimit: error" else .resp 200 "ok") =
      ⟨3, 0, 2, .ok (200, "ok")⟩ ∧
    newLimitOrder (fun _ => .resp 400 "Ratelimit: go away") =
      ⟨1, 0, 0, .error ("400 " ++ "Ratelimit: go away")⟩ := by
  have h := C7_rateLimit_retry_amended
    (fun i => if i < 2 then .resp 400 "Ratelimit: error" else .resp 200 "ok") "ok" 2
    (by decide)
    (fun j hj => by
      interval_cases j <;> exact ⟨"Ratelimit: error", rfl, by decide⟩)
    rfl
  exact ⟨h.1, h.2 (fun _ => .resp 400 "Ratelimit: go away") "Ratelimit: go away" rfl
    (by decide)⟩

/-! ## Helper lemmas: the Python dict model -/

theorem dictGet_set_self {α : Type} (d : List (Nat × α)) (k : Nat) (v : α) :
    dictGet (dictSet d k v) k = some v := by
  induction d with
  | nil => simp [dictSet, dictGet]
  | cons p rest ih =>
    by_cases h : p.1 = k
    · simp [dictSet, dictGet, h]
    · simp [dictSet, dictGet, h, ih]

theorem dictGet_set_ne {α : Type} (d : List (Nat × α)) (k k' : Nat) (v : α)
    (h : k' ≠ k) : dictGet (dictSet d k v) k' = dictGet d k' := by
  induction d with
  | nil => simp [dictSet, dictGet, Ne.symm h]
  | cons p rest ih =>
    by_cases hp : p.1 = k
    · simp only [dictSet, if_pos hp, dictGet]
      rw [if_neg (fun h2 => h h2.symm), if_neg (fun (h2 : p.1 = k') => h (h2 ▸ hp))]
    · simp only [dictSet, if_neg hp, dictGet]
      by_cases hq : p.1 = k'
      · simp [hq]
      · simp [hq, ih]

theorem dictSet_get_eq {α : Type} (d : List (Nat × α)) (k : Nat) (v : α)
    (h : dictGet d k = some v) : dictSet d k v = d := by
  induction d with
  | nil => simp [dictGet] at h
  | cons p rest ih =>
    by_cases hp : p.1 = k
    · simp only [dictGet, if_pos hp] at h
      cases h
      simp only [dictSet, if_pos hp]
      rw [← hp]
    · simp only [dictGet, if_neg hp] at h
      simp [dictSet, hp, ih h]

theorem dictGet_pop_self {α : Type} (d : List (Nat × α)) (k : Nat) :
    dictGet (dictPop d k) k = none := by
  induction d with
  | nil => simp [dictPop, dictGet]
  | cons p rest ih =>
    by_cases hp : p.1 = k
    · simp [dictPop, hp, ih]
    · simp [dictPop, hp, dictGet, ih]

theorem dictGet_pop_ne {α : Type} (d : List (Nat × α)) (k k' : Nat) (h : k' ≠ k) :
    dictGet (dictPop d k) k' = dictGet d k' := by
  induction d with
  | nil => simp [dictPop, dictGet]
  | cons p rest ih =>
    by_cases hp : p.1 = k
    · have hp' : ¬ p.1 = k' := fun (h2 : p.1 = k') => h (h2 ▸ hp)
      simp [dictPop, hp, dictGet, hp', h, Ne.symm h, ih]
    · by_cases hq : p.1 = k'
      · simp [dictPop, hp, dictGet, hq, h, Ne.symm h]
      · simp [dictPop, hp, dictGet, hq, h, Ne.symm h, ih]

/-! ## C9: discovery is idempotent -/

/-- On any id not named by the scanned order list, discovery leaves the
ledger entry unchanged. -/
theorem checkNew_get_notMem (targets : List (String × TargetConfig))
    (orders : List OrderStatus) (w : List (Nat × OrderStatus)) (k : Nat)
    (h : k ∉ orders.map (·.id)) :
    dictGet (checkNewWatchedOrders targets w orders) k = dictGet w k := by
  induction orders generalizing w with
  | nil => rfl
  | cons o os ih =>
    simp only [List.map_cons, List.mem_cons] at h
    push_neg at h
    have hko : k ≠ o.id := h.1
    simp only [checkNewWatchedOrders, List.foldl_cons]
    have hrec := ih (checkNewStep targets w o) h.2
    unfold checkNewWatchedOrders at hrec
    rw [hrec]
    by_cases hw : shouldWatchThisOrder targets o <;>
      by_cases hc : dictContains w o.id <;>
        simp [checkNewStep, hw, hc, dictGet_set_ne _ _ _ _ hko]

/-- A discovery step applied to a ledger already holding exactly this snapshot
for this id is a no-op. -/
theorem checkNewStep_keeps_latest (targets : List (String × TargetConfig))
    (w : List (Nat × OrderStatus)) (o : OrderStatus)
    (h : dictGet w o.id = some o) : checkNewStep targets w o = w := by
  have hc : dictContains w o.id = true := by simp [dictContains, h]
  by_cases hw : shouldWatchThisOrder targets o <;>
    simp [checkNewStep, hc, hw, dictSet_get_eq _ _ _ h]

/-- A discovery step on a non-matching order absent from the ledger is a
no-op. -/
theorem checkNewStep_skips_absent (targets : List (String × TargetConfig))
    (w : List (Nat × OrderStatus)) (o : OrderStatus)
    (hw : shouldWatchThisOrder targets o = false)
    (h : dictGet w o.id = none) : checkNewStep targets w o = w := by
  simp [checkNewStep, dictContains, h, hw]

/-- Re-running one discovery step on the state discovery produced is a no-op. -/
theorem checkNewStep_idem (targets : List (String × TargetConfig))
    (orders : List OrderStatus) (w : List (Nat × OrderStatus)) (o : OrderStatus)
    (hnotin : o.id ∉ orders.map (·.id)) :
    checkNewStep targets
      (checkNewWatchedOrders targets (checkNewStep targets w o) orders) o =
      checkNewWatchedOrders targets (checkNewStep targets w o) orders := by
  have hget := checkNew_get_notMem targets orders (checkNewStep targets w o) o.id hnotin
  by_cases hw : shouldWatchThisOrder targets o
  · have h1 : dictGet (checkNewStep targets w o) o.id = some o := by
      simp [checkNewStep, hw, dictGet_set_self]
    exact checkNewStep_keeps_latest targets _ o (hget.trans h1)
  · by_cases hc : dictContains w o.id
    · have h1 : dictGet (checkNewStep targets w o) o.id = some o := by
        simp [checkNewStep, hw, hc, dictGet_set_self]
      exact checkNewStep_keeps_latest targets _ o (hget.trans h1)
    · have h1 : dictGet (checkNewStep targets w o) o.id = none := by
        have h0 : checkNewStep targets w o = w := by
          simp [checkNewStep, hc, hw]
        rw [h0]
        rw [dictContains, Option.isSome_iff_ne_none] at hc
        simpa using hc
      exact checkNewStep_skips_absent targets _ o (by simpa using hw) (hget.trans h1)

/-- C9: discovery is idempotent — running `_check_new_watched_orders` twice
against the same unchanged exchange open-order list (one snapshot per id)
leaves the watched-order ledger identical to running it once, because adding
an order already present overwrites the entry with the latest snapshot. -/
theorem C9_discovery_idempotent (targets : List (String × TargetConfig))
    (w : List (Nat × OrderStatus)) (orders : List OrderStatus)
    (h : (orders.map (·.id)).Nodup) :
    checkNewWatchedOrders targets (checkNewWatchedOrders targets w orders) orders =
      checkNewWatchedOrders targets w orders := by
  induction orders generalizing w with
  | nil => rfl
  | cons o os ih =>
    simp only [List.map_cons, List.nodup_cons] at h
    simp only [checkNewWatchedOrders, List.foldl_cons]
    have hstep := checkNewStep_idem targets os w o h.1
    show List.foldl (checkNewStep targets)
      (checkNewStep targets
        (List.foldl (checkNewStep targets) (checkNewStep targets w o) os) o) os = _
    rw [show List.foldl (checkNewStep targets) (checkNewStep targets w o) os =
        checkNewWatchedOrders targets (checkNewStep targets w o) os from rfl, hstep]
    exact ih (checkNewStep targets w o) h.2

/-- Witness for C9 at a concrete input: one matching live order discovered
into an empty ledger, twice. -/
theorem C9_witness :
    checkNewWatchedOrders c4Targets
      (checkNewWatchedOrders c4Targets [] [mkLive 5 "sell" (101/10)])
      [mkLive 5 "sell" (101/10)] =
      checkNewWatchedOrders c4Targets [] [mkLive 5 "sell" (101/10)] :=
  C9_discovery_idempotent c4Targets [] [mkLive 5 "sell" (101/10)] (by simp)

/-! ## Evaluation of the concrete scenarios -/

/-- Backfill phase of the end-to-end scenario: from price 10.00 the bot
places sell 11 at 10.10 and buy 12 at 9.90, amount 1, paired, and debits the
cached balances. -/
theorem c4St1_eq : c4St1 =
    ⟨[(11, mkLive 11 "sell" (101/10)), (12, mkLive 12 "buy" (99/10))],
     [(11, 12), (12, 11)],
     [⟨"etc", "exchange", 10, 9⟩, ⟨"usd", "exchange", 1000, 9901/10⟩],
     [], [], []⟩ := by
  norm_num [c4St1, botStateOf, createTwoPairedOrders, createTwoPairedOrdersFull, c4Tgt,
    c4Place1, c4St0, c4Balances1, getWalletInfo, updateWalletAvailable, dictSet, mkLive,
    FIAT, pyLower_etc, pyLower_usd, Except.map, List.find?,
    show (("etc" == "usd") = false) from rfl,
    show (("usd" == "usd") = true) from rfl,
    show (("etc" == "etc") = true) from rfl,
    show (("exchange" == "exchange") = true) from rfl,
    show ¬("buy":String) = "sell" from by decide,
    show (("sell":String) = "sell") from rfl]

/-- Reaction phase of the end-to-end scenario: the executed buy 12 is
recorded and unwatched, its sibling 11 is cancel-requested (but stays in the
watched dict), the pairing is dropped, and a new pair sell 21 at 9.999 / buy
22 at 9.801 is created and paired. -/
theorem c4Final_eq : c4Final =
    ⟨[(11, mkLive 11 "sell" (101/10)), (21, mkLive 21 "sell" (9999/1000)),
      (22, mkLive 22 "buy" (9801/1000))],
     [(21, 22), (22, 21)],
     [⟨"etc", "exchange", 9, 8⟩, ⟨"usd", "exchange", 9901/10, 980299/1000⟩],
     [(1700000000, "ETCUSD", "buy", 1, 99/10)], [11], []⟩ := by
  norm_num [c4Final, c4St1_eq, botStateOf, checkWatchedOrders, checkOne, reactExecuted,
    recordExecuted, dictKeys, dictGet, dictPop, dictSet, List.foldlM, Except.bind,
    Except.pure, Except.map, bind, pure, orderWasCancelled, orderWasExecuted,
    c4StatusOf, c4ExecBuy, c4Place2, c4Balances2, c4Targets, c4Tgt, List.lookup,
    createTwoPairedOrders, createTwoPairedOrdersFull, getWalletInfo,
    updateWalletAvailable, mkLive, FIAT, pyLower_etc, pyLower_usd, List.find?,
    show (("etc" == "usd") = false) from rfl,
    show (("usd" == "usd") = true) from rfl,
    show (("etc" == "etc") = true) from rfl,
    show (("exchange" == "exchange") = true) from rfl,
    show (("ETCUSD" == "ETCUSD") = true) from rfl,
    show ¬("buy":String) = "sell" from by decide,
    show (("sell":String) = "sell") from rfl]

/-- Observation of the externally cancelled order 1: it is unwatched, but in
trade_bot.py the cancelled branch leaves both pairing entries in place. -/
theorem c2Final_eq : c2Final =
    ⟨[(2, mkLive 2 "buy" (99/10))],
     [(1, 2), (2, 1)], c4Balances1, [], [], []⟩ := by
  norm_num [c2Final, botStateOf, checkWatchedOrders, checkOne, dictKeys, dictGet,
    dictPop, List.foldlM, Except.bind, Except.pure, Except.map, bind, pure,
    orderWasCancelled, orderWasExecuted, c2StatusOf, c2CancelledSell, c2St0,
    c4Balances1, mkLive]

/-- Evaluation of `_create_two_paired_orders` on the 1.5-coin snapshot: the
sell leg is skipped with a "not enough" note, the buy leg is placed. -/
theorem c6Out_eq : c6Out =
    (⟨[(32, mkLive 32 "buy" (99/10))], [],
      [⟨"etc", "exchange", 3/2, 3/2⟩, ⟨"usd", "exchange", 1000, 9901/10⟩],
      [], [], ["Not enough etc to create a sell order"]⟩,
     none, some 32) := by
  norm_num [c6Out, createTwoPairedOrdersFull, c4Tgt, c6Place, c6St0, c6Balances,
    getWalletInfo, updateWalletAvailable, dictSet, mkLive, FIAT, pyLower_etc,
    pyLower_usd, List.find?,
    show ("Not enough " ++ "etc" ++ " to create a sell order" =
      "Not enough etc to create a sell order") from rfl,
    show (("etc" == "usd") = false) from rfl,
    show (("usd" == "usd") = true) from rfl,
    show (("etc" == "etc") = true) from rfl,
    show (("exchange" == "exchange") = true) from rfl,
    show ¬("buy":String) = "sell" from by decide,
    show (("sell":String) = "sell") from rfl]

/-! ## C4: the end-to-end decimal scenario -/

/-- C4: with target ETCUSD (unit 1, step the exact decimal 0.01) and last
price 10.00, the backfill creates sell 11 at 10.10 and buy 12 at 9.90, both
of amount 1 and paired; after the buy executes at 9.90 the loop requests
cancellation of the sell, removes both pairing entries, records
`(ts, ETCUSD, buy, 1, 9.90)` to the executed-orders sink, and creates a new
pair sell at 9.999 and buy at 9.801 (exact decimal arithmetic
`mid × (1 ± step)`). -/
theorem C4_end_to_end_scenario :
    dictGet c4St1.watched 11 = some (mkLive 11 "sell" (101/10)) ∧
    dictGet c4St1.watched 12 = some (mkLive 12 "buy" (99/10)) ∧
    dictGet c4St1.paired 11 = some 12 ∧ dictGet c4St1.paired 12 = some 11 ∧
    c4Final.cancels = [11] ∧
    c4Final.records = [(1700000000, "ETCUSD", "buy", 1, 99/10)] ∧
    dictGet c4Final.paired 11 = none ∧ dictGet c4Final.paired 12 = none ∧
    dictGet c4Final.watched 21 = some (mkLive 21 "sell" (9999/1000)) ∧
    dictGet c4Final.watched 22 = some (mkLive 22 "buy" (9801/1000)) ∧
    dictGet c4Final.paired 21 = some 22 ∧ dictGet c4Final.paired 22 = some 21 := by
  rw [c4St1_eq, c4Final_eq]
  exact ⟨rfl, rfl, rfl, rfl, rfl, rfl, rfl, rfl, rfl, rfl, rfl, rfl⟩

/-! ## C1: the executed branch does not unwatch the cancelled sibling -/

/-- C1 counterexample: in the end-to-end scenario the reaction to the
executed buy 12 requests cancellation of its paired sibling 11, yet order 11
is still present in the watched dict after the reconciliation pass (it is
only unwatched on a later pass, once a fresh status fetch reports it
cancelled) — contradicting the claim that the loop "cancels AND removes from
the watched set its paired sibling" before creating the new pair. -/
theorem C1_counterexample :
    c4Final.cancels = [11] ∧
    dictGet c4Final.watched 11 = some (mkLive 11 "sell" (101/10)) := by
  rw [c4Final_eq]
  exact ⟨rfl, rfl⟩

/-- C1 (amended): when a watched order reports executed, the loop records the
execution to the sink, removes the executed order from the watched set,
requests cancellation of the paired sibling and removes both pairing entries
— but leaves the sibling's watched entry untouched — and then reacts by
creating a new buy/sell pair centered on the average execution price. -/
theorem C1_executed_branch_amended (targets : List (String × TargetConfig))
    (place : String → ℚ → ℚ → String → OrderStatus)
    (statusOf : Nat → Option OrderStatus)
    (st : BotState) (id : Nat) (os : OrderStatus) (b : Nat) (tgt : TargetConfig)
    (hstat : statusOf id = some os)
    (hexec : orderWasExecuted os = true)
    (hpair : dictGet st.paired id = some b)
    (hb : b ≠ id)
    (htgt : targets.lookup os.symbol = some tgt) :
    checkOne targets place statusOf st id =
      createTwoPairedOrders tgt place os.avgExecutionPrice os.symbol os.originalAmount
        (reactExecuted st id os) ∧
    (reactExecuted st id os).records =
      st.records ++ [(os.timestamp, os.symbol, os.side, os.originalAmount,
        os.avgExecutionPrice)] ∧
    dictGet (reactExecuted st id os).watched id = none ∧
    (reactExecuted st id os).cancels = st.cancels ++ [b] ∧
    dictGet (reactExecuted st id os).paired id = none ∧
    dictGet (reactExecuted st id os).paired b = none ∧
    dictGet (reactExecuted st id os).watched b = dictGet st.watched b := by
  have hcanc : orderWasCancelled os = false := by
    simp only [orderWasExecuted, Bool.and_eq_true, beq_iff_eq] at hexec
    simp [orderWasCancelled, hexec.1, hexec.2]
  refine ⟨?_, ?_, ?_, ?_, ?_, ?_, ?_⟩
  · simp [checkOne, hstat, hcanc, hexec, htgt]
  · simp [reactExecuted, recordExecuted, hpair]
  · simp [reactExecuted, recordExecuted, hpair, dictGet_pop_self]
  · simp [reactExecuted, recordExecuted, hpair]
  · simp [reactExecuted, recordExecuted, hpair,
      dictGet_pop_ne _ b id (Ne.symm hb), dictGet_pop_self]
  · simp [reactExecuted, recordExecuted, hpair, dictGet_pop_self]
  · simp [reactExecuted, recordExecuted, hpair, dictGet_pop_ne _ id b hb]

/-- Witness for C1 (amended) at a concrete input: the watched pair (1, 2)
with order 2 executed at 9.90. -/
theorem C1_witness :
    checkOne c4Targets c4Place2 (fun _ => some c1ExecBuy2) c2St0 2 =
      createTwoPairedOrders c4Tgt c4Place2 c1ExecBuy2.avgExecutionPrice
        c1ExecBuy2.symbol c1ExecBuy2.originalAmount (reactExecuted c2St0 2 c1ExecBuy2) ∧
    (reactExecuted c2St0 2 c1ExecBuy2).records =
      c2St0.records ++ [(c1ExecBuy2.timestamp, c1ExecBuy2.symbol, c1ExecBuy2.side,
        c1ExecBuy2.originalAmount, c1ExecBuy2.avgExecutionPrice)] ∧
    dictGet (reactExecuted c2St0 2 c1ExecBuy2).watched 2 = none ∧
    (reactExecuted c2St0 2 c1ExecBuy2).cancels = c2St0.cancels ++ [1] ∧
    dictGet (reactExecuted c2St0 2 c1ExecBuy2).paired 2 = none ∧
    dictGet (reactExecuted c2St0 2 c1ExecBuy2).paired 1 = none ∧
    dictGet (reactExecuted c2St0 2 c1ExecBuy2).watched 1 = dictGet c2St0.watched 1 :=
  C1_executed_branch_amended c4Targets c4Place2 (fun _ => some c1ExecBuy2) c2St0 2
    c1ExecBuy2 1 c4Tgt rfl rfl rfl (by decide) rfl

/-! ## C2: trade_bot.py leaves dangling pairing entries on cancellation -/

/-- C2: the pairing table is created symmetrically, but when the member 1 of
the watched pair (1, 2) is observed cancelled, trade_bot.py's cancelled
branch only pops the watched entry: both pairing entries survive, so the
pairing table refers to an order that is no longer watched — and the
unguarded lookup `self._watched_orders[self._paired_orders[id]]` performed by
`_log_watched_orders` on the very next step would raise `KeyError` (the
`logWatchedOrdersTotal` check is false).  trade_jbot.py's cancelled branch
pops both pairing entries here, which is what the claim (and the spec)
describe, so the trade_bot.py behaviour is a code bug. -/
theorem C2_cancelled_branch_dangling_pairing :
    dictGet c2Final.watched 1 = none ∧
    dictGet c2Final.paired 1 = some 2 ∧
    dictGet c2Final.paired 2 = some 1 ∧
    logWatchedOrdersTotal c2Final = false := by
  rw [c2Final_eq]
  exact ⟨rfl, rfl, rfl, rfl⟩

/-! ## C6: the balance check requires twice the requested amount -/

/-- Debiting one currency's exchange wallet leaves lookups of a different
currency unchanged. -/
theorem getWalletInfo_update_ne (c c2 : String) (δ : ℚ) (balances : List Wallet)
    (h : pyLower c ≠ pyLower c2) :
    getWalletInfo c2 (updateWalletAvailable c δ balances) = getWalletInfo c2 balances := by
  induction balances with
  | nil => rfl
  | cons w rest ih =>
    by_cases hm : (pyLower w.currency == pyLower c && w.wtype == "exchange") = true
    · rw [Bool.and_eq_true] at hm
      have hcur : pyLower w.currency = pyLower c := by
        have h1 := hm.1
        rwa [beq_iff_eq] at h1
      have hm' : (pyLower w.currency == pyLower c && w.wtype == "exchange") = true := by
        rw [Bool.and_eq_true]
        exact hm
      have hw2 : (pyLower w.currency == pyLower c2) = false := by
        simp [hcur, h]
      simp [updateWalletAvailable, getWalletInfo, hm', List.find?, hw2]
    · have : getWalletInfo c2 (updateWalletAvailable c δ (w :: rest)) =
          getWalletInfo c2 (w :: updateWalletAvailable c δ rest) := by
        simp [updateWalletAvailable, hm]
      rw [this]
      by_cases hw2 : (pyLower w.currency == pyLower c2 && w.wtype == "exchange") = true
      · simp [getWalletInfo, List.find?, hw2]
      · simp only [getWalletInfo, List.find?] at ih ⊢
        simp [hw2, ih]

/-- C6 counterexample: with coin available 1.5 and requested amount 1 the
snapshot covers the requested amount, yet `_create_two_paired_orders` skips
the sell leg (the code's check is `available >= amount * 2`), emits the "not
enough" notification, and still places the buy leg — contradicting the claim
that the verification is that the balance "can cover at least the requested
amount". -/
theorem C6_counterexample :
    (getWalletInfo "etc" c6St0.balances).map (fun w => w.available) = some (3/2) ∧
    ((1 : ℚ) ≤ 3/2) ∧
    c6Out.2.1 = none ∧
    c6Out.2.2 = some 32 ∧
    c6Out.1.notes = ["Not enough etc to create a sell order"] := by
  rw [c6Out_eq]
  exact ⟨rfl, by norm_num, rfl, rfl, rfl⟩

/-- C6 (amended): each side of the pair is checked against the iteration's
cached balance snapshot with a safety margin of two — the sell leg is placed
iff the coin wallet's available balance is at least twice the requested
amount, the buy leg iff the fiat wallet's available balance is at least twice
the buy cost — each side is decided independently of the other, and a skipped
side emits a "not enough" notification. -/
theorem C6_balance_check_amended (tgt : TargetConfig)
    (place : String → ℚ → ℚ → String → OrderStatus)
    (mid : ℚ) (symbol : String) (amount : ℚ) (st : BotState) (wC wF : Wallet)
    (hC : getWalletInfo tgt.currency st.balances = some wC)
    (hF : getWalletInfo FIAT st.balances = some wF)
    (hne : pyLower tgt.currency ≠ pyLower FIAT) :
    createTwoPairedOrdersFull tgt place mid symbol amount st =
      .ok (createTwoPairedOrdersRun tgt place mid symbol amount st) ∧
    ((createTwoPairedOrdersRun tgt place mid symbol amount st).2.1.isSome = true ↔
      amount * 2 ≤ wC.available) ∧
    ((createTwoPairedOrdersRun tgt place mid symbol amount st).2.2.isSome = true ↔
      mid * (1 - tgt.step) * amount * 2 ≤ wF.available) ∧
    (¬ amount * 2 ≤ wC.available →
      ("Not enough " ++ tgt.currency ++ " to create a sell order") ∈
        (createTwoPairedOrdersRun tgt place mid symbol amount st).1.notes) ∧
    (¬ mid * (1 - tgt.step) * amount * 2 ≤ wF.available →
      ("Not enough " ++ FIAT ++ " to create a buy order") ∈
        (createTwoPairedOrdersRun tgt place mid symbol amount st).1.notes) := by
  have hF2 : getWalletInfo FIAT
      (updateWalletAvailable tgt.currency amount st.balances) = some wF :=
    (getWalletInfo_update_ne tgt.currency FIAT amount st.balances hne).trans hF
  by_cases hs : wC.available ≥ amount * 2
  · by_cases hb : wF.available ≥ mid * (1 - tgt.step) * amount * 2
    · simp only [createTwoPairedOrdersRun, createTwoPairedOrdersFull, hC, if_pos hs,
        hF2, if_pos hb]
      exact ⟨trivial, by simp [hs], by simp [hb], fun hcon => absurd hs hcon,
        fun hcon => absurd hb hcon⟩
    · simp only [createTwoPairedOrdersRun, createTwoPairedOrdersFull, hC, if_pos hs,
        hF2, if_neg hb]
      exact ⟨trivial, by simp [hs], by simp [hb], fun hcon => absurd hs hcon,
        fun _ => by simp⟩
  · by_cases hb : wF.available ≥ mid * (1 - tgt.step) * amount * 2
    · simp only [createTwoPairedOrdersRun, createTwoPairedOrdersFull, hC, if_neg hs,
        hF, if_pos hb]
      exact ⟨trivial, by simp [hs], by simp [hb], fun _ => by simp,
        fun hcon => absurd hb hcon⟩
    · simp only [createTwoPairedOrdersRun, createTwoPairedOrdersFull, hC, if_neg hs,
        hF, if_neg hb]
      exact ⟨trivial, by simp [hs], by simp [hb], fun _ => by simp, fun _ => by simp⟩

/-- Witness for C6 (amended) at the concrete 1.5-coin snapshot. -/
theorem C6_witness :
    createTwoPairedOrdersFull c4Tgt c6Place 10 "ETCUSD" 1 c6St0 =
      .ok (createTwoPairedOrdersRun c4Tgt c6Place 10 "ETCUSD" 1 c6St0) ∧
    ((createTwoPairedOrdersRun c4Tgt c6Place 10 "ETCUSD" 1 c6St0).2.1.isSome = true ↔
      (1 : ℚ) * 2 ≤ (3/2 : ℚ)) ∧
    ((createTwoPairedOrdersRun c4Tgt c6Place 10 "ETCUSD" 1 c6St0).2.2.isSome = true ↔
      10 * (1 - c4Tgt.step) * 1 * 2 ≤ (1000 : ℚ)) ∧
    (¬ (1 : ℚ) * 2 ≤ (3/2 : ℚ) →
      ("Not enough " ++ c4Tgt.currency ++ " to create a sell order") ∈
        (createTwoPairedOrdersRun c4Tgt c6Place 10 "ETCUSD" 1 c6St0).1.notes) ∧
    (¬ 10 * (1 - c4Tgt.step) * 1 * 2 ≤ (1000 : ℚ) →
      ("Not enough " ++ FIAT ++ " to create a buy order") ∈
        (createTwoPairedOrdersRun c4Tgt c6Place 10 "ETCUSD" 1 c6St0).1.notes) :=
  C6_balance_check_amended c4Tgt c6Place 10 "ETCUSD" 1 c6St0
    ⟨"etc", "exchange", 3/2, 3/2⟩ ⟨"usd", "exchange", 1000, 1000⟩
    rfl rfl (by decide)

/-! ## C8: the durable set records every cancellation attempt, not only
ultimate failures -/

/-- C8 counterexample: `_cancel_order(42)` succeeds on its very first
attempt, yet 42 is recorded into the durable should-have-been-cancelled set —
contradicting the claim that an id is recorded "exactly when its cancellation
ultimately fails": the insert happens unconditionally before the first
attempt (the code comments "No matter the cancel order request succeed or
not, store it to db"). -/
theorem C8_counterexample :
    c8Res.2 = .succeeded 1 ∧ c8Res.1.shouldCancelled = [42] :=
  ⟨rfl, rfl⟩

/-- C8 (amended): the order id is recorded into the durable
should-have-been-cancelled set on every call of `_cancel_order`, before the
first attempt and regardless of the outcome; and when an order whose id is in
that set later reports as executed, the loop still records the execution and
unwatches it (and cancels/unpairs the sibling) but suppresses the normal
post-execution creation of two new paired orders. -/
theorem C8_should_cancel_amended :
    (∀ (outcomes : Nat → CancelOutcome) (id : Nat) (st : JBotState),
      (jCancelOrder outcomes id st).1.shouldCancelled = st.shouldCancelled ++ [id]) ∧
    (∀ (targets : List (String × TargetConfig))
      (place : String → ℚ → ℚ → String → Option OrderStatus)
      (statusOf : Nat → Option OrderStatus)
      (cancelOutcomes : Nat → Nat → CancelOutcome)
      (st : JBotState) (id : Nat) (os : OrderStatus) (b : Nat),
      statusOf id = some os →
      orderWasExecuted os = true →
      dictGet st.paired id = some b →
      cancelOutcomes b 0 = .ok →
      id ∈ st.shouldCancelled →
      jCheckOne targets place statusOf cancelOutcomes st id = .ok
        ⟨dictPop st.watched id,
         dictPop (dictPop st.paired id) b,
         st.records ++ [(os.timestamp, os.symbol, os.side, os.originalAmount,
           os.avgExecutionPrice)],
         st.shouldCancelled ++ [b],
         st.notes⟩) := by
  constructor
  · intro outcomes id st
    rfl
  · intro targets place statusOf cancelOutcomes st id os b hstat hexec hpair hok hid
    have hcanc : orderWasCancelled os = false := by
      simp only [orderWasExecuted, Bool.and_eq_true, beq_iff_eq] at hexec
      simp [orderWasCancelled, hexec.1, hexec.2]
    have hexec2 : orderWasExecuted os = true := by
      simp only [orderWasExecuted, Bool.and_eq_true, beq_iff_eq] at hexec
      simp [orderWasExecuted, hexec.1, hexec.2]
    have hct : jCancelTry (cancelOutcomes b) 0 JBOT_MAX_CANCEL_ORDER_RETRIES =
        .succeeded 1 := by
      rw [show JBOT_MAX_CANCEL_ORDER_RETRIES = 9 + 1 from rfl]
      simp [jCancelTry, hok]
    simp [jCheckOne, hstat, hcanc, hexec2, recordExecuted2, hpair, jCancelOrder,
      jSaveShouldBeCancelled, hct, jIsShouldBeCancelled, hid]

/-- Witness for C8 (amended) at concrete inputs: recording on a successful
cancel, and suppression of order creation for an executed order already in
the set. -/
theorem C8_witness :
    (jCancelOrder (fun _ => .ok) 7 jSt0).1.shouldCancelled =
      jSt0.shouldCancelled ++ [7] ∧
    jCheckOne [] (fun _ _ _ _ => none) (fun _ => some c1ExecBuy2)
      (fun _ _ => .ok) c8St1 2 = .ok
        ⟨dictPop c8St1.watched 2,
         dictPop (dictPop c8St1.paired 2) 1,
         c8St1.records ++ [(c1ExecBuy2.timestamp, c1ExecBuy2.symbol, c1ExecBuy2.side,
           c1ExecBuy2.originalAmount, c1ExecBuy2.avgExecutionPrice)],
         c8St1.shouldCancelled ++ [1],
         c8St1.notes⟩ :=
  ⟨C8_should_cancel_amended.1 (fun _ => .ok) 7 jSt0,
   C8_should_cancel_amended.2 [] (fun _ _ _ _ => none) (fun _ => some c1ExecBuy2)
     (fun _ _ => .ok) c8St1 2 c1ExecBuy2 1 rfl rfl rfl rfl (by decide)⟩

/-! ## C10: the Intervals invariant -/

/-- When every interval in the list starts at least two past `e`, the merge
scan keeps everything and leaves the window unchanged. -/
theorem intervalsAddLoop_id : ∀ (data : List (Int × Int)) (s e : Int),
    (∀ p ∈ data, e + 2 ≤ p.1) → intervalsAddLoop data s e = (data, (s, e))
  | [], _, _, _ => rfl
  | it :: rest, s, e, h => by
    have h1 : ¬(it.2 + 1 ≥ s ∧ it.1 - 1 ≤ e) := by
      intro hc
      have := h it (by simp)
      omega
    simp only [intervalsAddLoop, if_neg h1]
    rw [intervalsAddLoop_id rest s e (fun p hp => h p (by simp [hp]))]

/-- Invariant of the merge scan: on a valid, separated input list with
`s ≤ e`, the kept intervals form a sublist of the input, the final window is
valid, every kept interval is separated from the final window (on one side or
the other), and the final window's start is the original `s` or the start of
some input interval. -/
theorem intervalsAddLoop_spec : ∀ (data : List (Int × Int)) (s e : Int),
    (∀ p ∈ data, p.1 ≤ p.2) → data.Pairwise Sep → s ≤ e →
    (intervalsAddLoop data s e).1.Sublist data ∧
    (intervalsAddLoop data s e).2.1 ≤ (intervalsAddLoop data s e).2.2 ∧
    (∀ p ∈ (intervalsAddLoop data s e).1,
      Sep p (intervalsAddLoop data s e).2 ∨ Sep (intervalsAddLoop data s e).2 p) ∧
    ((intervalsAddLoop data s e).2.1 = s ∨
      ∃ y ∈ data, (intervalsAddLoop data s e).2.1 = y.1)
  | [], s, e, _, _, hse => by
    refine ⟨List.Sublist.refl _, hse, ?_, Or.inl rfl⟩
    intro p hp
    simp [intervalsAddLoop] at hp
  | it :: rest, s, e, hval, hpw, hse => by
    rcases List.pairwise_cons.mp hpw with ⟨hit, hrest⟩
    have hvit : it.1 ≤ it.2 := hval it (by simp)
    have hvrest : ∀ p ∈ rest, p.1 ≤ p.2 := fun p hp => hval p (by simp [hp])
    by_cases hc : it.2 + 1 ≥ s ∧ it.1 - 1 ≤ e
    · have hse2 : min it.1 s ≤ max it.2 e := by omega
      have IH := intervalsAddLoop_spec rest (min it.1 s) (max it.2 e) hvrest hrest hse2
      simp only [intervalsAddLoop, if_pos hc]
      refine ⟨IH.1.cons it, IH.2.1, IH.2.2.1, ?_⟩
      rcases IH.2.2.2 with h | ⟨y, hy, hy2⟩
      · rcases le_total it.1 s with hle | hle
        · exact Or.inr ⟨it, by simp, by rw [h]; exact min_eq_left hle⟩
        · exact Or.inl (by rw [h]; exact min_eq_right hle)
      · exact Or.inr ⟨y, by simp [hy], hy2⟩
    · rcases not_and_or.mp hc with hl | hr
      · -- `it` lies entirely left of the window, with a gap
        have hls : it.2 + 2 ≤ s := by omega
        have IH := intervalsAddLoop_spec rest s e hvrest hrest hse
        simp only [intervalsAddLoop, if_neg hc]
        refine ⟨IH.1.cons₂ it, IH.2.1, ?_, ?_⟩
        · intro p hp
          rcases List.mem_cons.mp hp with rfl | hp2
          · left
            rcases IH.2.2.2 with h | ⟨y, hy, hy2⟩
            · show p.2 + 2 ≤ (intervalsAddLoop rest s e).2.1
              rw [h]; omega
            · show p.2 + 2 ≤ (intervalsAddLoop rest s e).2.1
              rw [hy2]
              exact hit y hy
          · exact IH.2.2.1 p hp2
        · rcases IH.2.2.2 with h | ⟨y, hy, hy2⟩
          · exact Or.inl h
          · exact Or.inr ⟨y, by simp [hy], hy2⟩
      · -- the window is entirely left of `it`, with a gap: nothing merges
        have hall : ∀ p ∈ it :: rest, e + 2 ≤ p.1 := by
          intro p hp
          rcases List.mem_cons.mp hp with h2 | hp2
          · have : p.1 = it.1 := by rw [h2]
            omega
          · have h3 : it.2 + 2 ≤ p.1 := hit p hp2
            omega
        rw [intervalsAddLoop_id (it :: rest) s e hall]
        exact ⟨List.Sublist.refl _, hse,
          fun p hp => Or.inr (hall p hp), Or.inl rfl⟩

/-- Sorting a list whose members are valid intervals pairwise separated in
one direction or the other yields a list pairwise separated left-to-right. -/
theorem pairwise_sep_of_sorted (L : List (Int × Int))
    (hsort : List.Pairwise lexLe L)
    (hval : ∀ p ∈ L, p.1 ≤ p.2)
    (hsym : L.Pairwise (fun a b => Sep a b ∨ Sep b a)) :
    L.Pairwise Sep := by
  have hand := hsort.and hsym
  refine hand.imp_of_mem ?_
  intro a b ha hb hab
  rcases hab.2 with hs | hs
  · exact hs
  · exfalso
    have hvb : b.1 ≤ b.2 := hval b hb
    have : a.1 ≤ b.1 := by
      rcases hab.1 with h | ⟨h, _⟩
      · omega
      · omega
    have : b.2 + 2 ≤ a.1 := hs
    omega

/-- One `Intervals.add` call preserves validity and separation of the data
list. -/
theorem intervalsAdd_inv (data : List (Int × Int)) (s e : Int)
    (hval : ∀ p ∈ data, p.1 ≤ p.2) (hpw : data.Pairwise Sep) :
    (∀ p ∈ intervalsAdd data s e, p.1 ≤ p.2) ∧
    (intervalsAdd data s e).Pairwise Sep := by
  unfold intervalsAdd
  by_cases hc : e < s
  · rw [if_pos hc]
    exact ⟨hval, hpw⟩
  · simp only [if_neg hc]
    have hse : s ≤ e := le_of_not_lt hc
    obtain ⟨hsub, hval2, hsep, _⟩ := intervalsAddLoop_spec data s e hval hpw hse
    have hperm := List.perm_insertionSort lexLe
      ((intervalsAddLoop data s e).1 ++ [(intervalsAddLoop data s e).2])
    have hvalL : ∀ p ∈ (intervalsAddLoop data s e).1 ++ [(intervalsAddLoop data s e).2],
        p.1 ≤ p.2 := by
      intro p hp
      rcases List.mem_append.mp hp with hp2 | hp2
      · exact hval p (hsub.subset hp2)
      · rcases List.mem_singleton.mp hp2 with rfl
        exact hval2
    have hsymL : ((intervalsAddLoop data s e).1 ++
        [(intervalsAddLoop data s e).2]).Pairwise (fun a b => Sep a b ∨ Sep b a) := by
      rw [List.pairwise_append]
      refine ⟨(hpw.sublist hsub).imp (fun h => Or.inl h), by simp, ?_⟩
      intro a ha b hb
      rcases List.mem_singleton.mp hb with rfl
      exact hsep a ha
    constructor
    · intro p hp
      exact hvalL p (hperm.mem_iff.mp hp)
    · refine pairwise_sep_of_sorted _ (List.sorted_insertionSort lexLe _) ?_ ?_
      · intro p hp
        exact hvalL p (hperm.mem_iff.mp hp)
      · exact hsymL.perm hperm.symm (fun {_ _} h => Or.symm h)

/-- C10: every `Intervals` data list reachable from the empty `Intervals()`
by `add(start, end)` calls (calls with `end < start` being ignored) consists
of valid intervals (`start ≤ end`), is strictly sorted by start, and any two
consecutive intervals are disjoint and non-adjacent: each interval ends at
least two below the start of the next (overlapping or adjacent additions
having been merged into one interval by `add`). -/
theorem C10_intervals_invariant (l : List (Int × Int)) (h : IntervalsReachable l) :
    (∀ p ∈ l, p.1 ≤ p.2) ∧
    l.Pairwise (fun a b => a.1 < b.1) ∧
    l.Pairwise Sep := by
  induction h with
  | empty => simp
  | add l s e _ ih =>
    obtain ⟨hv, hp⟩ := intervalsAdd_inv l s e ih.1 ih.2.2
    refine ⟨hv, ?_, hp⟩
    refine hp.imp_of_mem ?_
    intro a b ha _ hsep
    have := hv a ha
    have h2 : a.2 + 2 ≤ b.1 := hsep
    omega

/-- Witness for C10 at a concrete reachable value: two overlapping-adjacent
additions merged into one interval. -/
theorem C10_witness :
    (∀ p ∈ intervalsAdd (intervalsAdd [] 1 3) 4 6, p.1 ≤ p.2) ∧
    (intervalsAdd (intervalsAdd [] 1 3) 4 6).Pairwise
      (fun a b : Int × Int => a.1 < b.1) ∧
    (intervalsAdd (intervalsAdd [] 1 3) 4 6).Pairwise Sep :=
  C10_intervals_invariant (intervalsAdd (intervalsAdd [] 1 3) 4 6)
    (IntervalsReachable.add _ 4 6 (IntervalsReachable.add _ 1 3 IntervalsReachable.empty))

end Alec
